import Mathlib

/-!
Shallow embedding of backend/app/websites.py (ThinNav): the icon resolution
pipeline (get_icon, generate_letter_icon, save_icon_image), the description
fetcher, and the CRUD handlers create_website, read_websites, update_website.

Modelling conventions: the network is a function World from URL strings to
optional parsed pages; failures, such as connection errors, non-2xx statuses
and HTML parse failures, are a none result.
Python dynamic values that can be either a dict or a str are
embedded as the sum type IconUrlVal.  Uncaught Python exceptions are Except
errors.  File writes are returned explicitly instead of performed.  Machine
independent library helpers (urllib.parse, tldextract, BeautifulSoup lookups,
PIL) are embedded by executable Lean functions over List Char, restricted to
the behaviour the handlers exercise; each carries a doc comment stating the
modelled scope.
-/

/-- Model of Python str.isdigit restricted to ASCII digits: true exactly when
the string is non-empty and every character is a decimal digit.  Like the
Python original, the empty string is not considered a digit string. -/
def pyIsDigit (s : String) : Bool :=
  !s.data.isEmpty && s.data.all Char.isDigit

/-- Model of the Python expression s.replace(".", "") used on hostnames:
removes every dot character. -/
def removeDots (s : String) : String :=
  String.mk (s.data.filter (fun c => !(c = '.')))

/-- The character map underlying filename.replace(":", "_"). -/
def colonToUnderscore (c : Char) : Char :=
  if c = ':' then '_' else c

/-- Model of the Python expression filename.replace(":", "_"): every colon
becomes an underscore. -/
def replaceColonUnderscore (s : String) : String :=
  String.mk (s.data.map colonToUnderscore)

/-- Model of Python str.strip with no arguments: removes leading and trailing
whitespace characters. -/
def pyStrip (s : String) : String :=
  String.mk (((s.data.dropWhile Char.isWhitespace).reverse.dropWhile Char.isWhitespace).reverse)

/-- Characters allowed after the first character of a URL scheme, as in
urllib.parse.urlsplit. -/
def isSchemeChar (c : Char) : Bool :=
  c.isAlphanum || c = '+' || c = '-' || c = '.'

/-- Model of the scheme detection of urllib.parse.urlsplit: when the input
starts with an alphabetic character followed by scheme characters and a colon,
returns the scheme characters and the remainder after the colon. -/
def schemeSplitChars (l : List Char) : Option (List Char × List Char) :=
  let cand := l.takeWhile (fun c => !(c = ':'))
  match l.dropWhile (fun c => !(c = ':')) with
  | ':' :: after =>
    match cand with
    | [] => none
    | c0 :: cs => if c0.isAlpha && cs.all isSchemeChar then some (cand, after) else none
  | _ => none

/-- The URL with its scheme and the following colon removed, when a scheme is
present. -/
def restAfterScheme (url : String) : List Char :=
  match schemeSplitChars url.data with
  | some (_, r) => r
  | none => url.data

/-- Model of the netloc component of urllib.parse.urlparse: present exactly
when the input, after any scheme, starts with two slashes; it then extends to
the next slash, question mark or hash. -/
def netlocChars (url : String) : List Char :=
  match restAfterScheme url with
  | '/' :: '/' :: rest => rest.takeWhile (fun c => !(c = '/') && !(c = '?') && !(c = '#'))
  | _ => []

/-- The netloc component as a string, as read by urlparse(url).netloc. -/
def netlocOf (url : String) : String :=
  String.mk (netlocChars url)

/-- Model of urlparse(url).hostname: the netloc with any user information
before an at sign and any port after a colon removed, lowercased; none when
the result is empty (IPv6 bracket syntax is not modelled, the application
never passes bracketed hosts). -/
def hostnameOf (url : String) : Option String :=
  let n := netlocChars url
  let hostinfo := (n.reverse.takeWhile (fun c => !(c = '@'))).reverse
  let host := hostinfo.takeWhile (fun c => !(c = ':'))
  if host.isEmpty then none else some (String.mk (host.map Char.toLower))

/-- The path component of a URL, used by the join of relative references:
what follows the netloc, up to a query or fragment delimiter. -/
def pathChars (url : String) : List Char :=
  match restAfterScheme url with
  | '/' :: '/' :: rest =>
    (rest.dropWhile (fun c => !(c = '/') && !(c = '?') && !(c = '#'))).takeWhile
      (fun c => !(c = '?') && !(c = '#'))
  | r => r.takeWhile (fun c => !(c = '?') && !(c = '#'))

/-- The directory part of a path: everything through the final slash, or empty
when the path has no slash. -/
def dirChars (p : List Char) : List Char :=
  (p.reverse.dropWhile (fun c => !(c = '/'))).reverse

/-- Model of urllib.parse.urljoin restricted to the shapes get_icon produces:
a reference carrying its own scheme is returned unchanged, a network-path
reference starting with two slashes adopts the base scheme, an absolute-path
reference replaces the base path, an empty reference yields the base, and any
other reference is appended to the directory of the base path.  Dot-segment
normalisation and query or fragment merging are outside the modelled scope. -/
def urljoin (base ref : String) : String :=
  if (schemeSplitChars ref.data).isSome then ref
  else
    let scheme := match schemeSplitChars base.data with
      | some (s, _) => String.mk (s.map Char.toLower)
      | none => ""
    let schemeColon := if scheme = "" then "" else scheme ++ ":"
    match ref.data with
    | '/' :: '/' :: _ => schemeColon ++ ref
    | '/' :: _ => schemeColon ++ "//" ++ netlocOf base ++ ref
    | [] => base
    | _ => schemeColon ++ "//" ++ netlocOf base ++ String.mk (dirChars (pathChars base)) ++ ref

/-- Embeds lines 82 to 87 of get_icon: a href already starting with http:// or
https:// is kept, any other href is joined against the page URL that was
fetched. -/
def resolvedHref (pageUrl href : String) : String :=
  if "http://".data.isPrefixOf href.data || "https://".data.isPrefixOf href.data then href
  else urljoin pageUrl href

/-- A parsed HTML link element as BeautifulSoup presents it: rel is the
whitespace-split token list of the rel attribute (BeautifulSoup treats rel as
a multi-valued attribute), href is the optional href attribute value. -/
structure LinkTag where
  rel : List String
  href : Option String
deriving DecidableEq

/-- The parts of a fetched page that websites.py inspects: the link elements
in document order, and the first meta element named description.  For the
latter, none means no such meta tag, some none a tag without content
attribute, and some (some c) a tag whose content attribute is c. -/
structure Page where
  links : List LinkTag
  descTag : Option (Option String)
deriving DecidableEq

/-- Network model: the parsed page a GET of each URL yields; none models any
fetch failure the handlers catch, such as connection errors, timeouts and
non-2xx statuses reported by raise_for_status. -/
def World : Type :=
  String → Option Page

/-- Model of the attribute matching of soup.find("link", rel=query) for the
multi-valued rel attribute: the query matches when it equals one token or the
whole space-joined value. -/
def relMatches (tokens : List String) (query : String) : Bool :=
  tokens.contains query || String.intercalate " " tokens == query

/-- Model of soup.find("link", rel=query): the first link element whose rel
attribute matches. -/
def findLinkByRel (links : List LinkTag) (query : String) : Option LinkTag :=
  links.find? (fun l => relMatches l.rel query)

/-- Embeds fetch_website_description: on any fetch error return the empty
string, otherwise return the stripped content attribute of the first meta
element named description, the empty string when the tag or the attribute is
absent. -/
def fetch_website_description (w : World) (url : String) : String :=
  match w url with
  | none => ""
  | some page =>
    match page.descTag with
    | none => ""
    | some content => pyStrip (content.getD "")

/-- Embeds get_icon.  A returned value some u models the Python dict binding
icon_url to u; none models the caught-exception path, which covers fetch
failures and the HTTPException 404 raised when no matching link with a truthy
href exists.  The lookup tries rel icon first, then rel shortcut icon, and the
first found link must carry a non-empty href. -/
def get_icon (w : World) (url : String) : Option String :=
  match w url with
  | none => none
  | some page =>
    match (findLinkByRel page.links "icon").orElse
        (fun _ => findLinkByRel page.links "shortcut icon") with
    | none => none
    | some link =>
      match link.href with
      | none => none
      | some href => if href = "" then none else some (resolvedHref url href)

/-- The letter avatar produced by generate_letter_icon.  The PIL rendering
(64 by 64 canvas, circular mask, font selection, centering) is abstracted to
the single datum the claims mention: the letter drawn. -/
structure LetterIcon where
  letter : Char
deriving DecidableEq

/-- Single-label public suffixes known to the tldextract model. -/
def knownSuffixes : List String :=
  ["com", "org", "net", "edu", "gov", "mil", "int", "io", "co", "ai", "app",
   "dev", "cn", "uk", "us", "de", "fr", "jp", "ru", "info", "biz", "xyz",
   "top", "cc", "tv", "me"]

/-- Two-label public suffixes known to the tldextract model. -/
def knownSuffixPairs : List String :=
  ["co.uk", "org.uk", "ac.uk", "gov.uk", "com.cn", "net.cn", "org.cn",
   "gov.cn", "edu.cn", "com.au", "co.jp", "com.br"]

/-- Splits a character list on a separator character, keeping empty segments,
as Python str.split with an explicit separator does. -/
def splitOnCharList (sep : Char) : List Char → List (List Char)
  | [] => [[]]
  | a :: l =>
    let r := splitOnCharList sep l
    if a = sep then [] :: r
    else
      match r with
      | [] => [[a]]
      | h :: t => (a :: h) :: t

/-- Modelled from tldextract.extract(url).domain: the last host label before
the public suffix, with the public suffix taken from a fixed fragment of the
public suffix list; empty when no label remains.  For URLs with no parsed
hostname the value is never observed, because generate_letter_icon raises
before reading it, so it is modelled as empty. -/
def tldextract_domain (url : String) : String :=
  match hostnameOf url with
  | none => ""
  | some host =>
    let labels := (splitOnCharList '.' host.data).map String.mk
    let lastTwo := String.intercalate "." (labels.drop (labels.length - 2))
    let rest :=
      if 2 ≤ labels.length ∧ knownSuffixPairs.contains lastTwo = true then
        labels.dropLast.dropLast
      else if knownSuffixes.contains (labels.getLast?.getD "") = true then
        labels.dropLast
      else labels
    (rest.getLast?).getD ""

/-- Embeds generate_letter_icon: when the hostname with dots removed is a
digit string the letter is the uppercased first hostname character, otherwise
the uppercased first character of the extracted domain, or U when the domain
is empty.  When urlparse(url).hostname is None the Python code raises
AttributeError at hostname.replace, modelled as an error result. -/
def generate_letter_icon (url : String) : Except String LetterIcon :=
  let domain := tldextract_domain url
  match hostnameOf url with
  | none => .error "AttributeError: NoneType has no attribute replace"
  | some host =>
    if pyIsDigit (removeDots host) then .ok ⟨host.front.toUpper⟩
    else if !(domain = "") then .ok ⟨domain.front.toUpper⟩
    else .ok ⟨'U'⟩

/-- A PNG file written under the icon directory. -/
structure FileWrite where
  path : String
  image : LetterIcon
deriving DecidableEq

/-- Embeds save_icon_image: replace each colon in the filename with an
underscore, put the file under ./icons/, append the .png extension when the
path does not already end in it, write the image bytes there and return the
path.  The write is returned explicitly instead of performed. -/
def save_icon_image (image : LetterIcon) (filename : String) : String × FileWrite :=
  let cleaned := replaceColonUnderscore filename
  let path0 := "./icons/" ++ cleaned
  let path := if ".png".data.isSuffixOf path0.data then path0 else path0 ++ ".png"
  (path, ⟨path, image⟩)

/-- The dynamic Python value bound to icon_url in create_website: either a
plain string, or the dict that get_icon returns, whose single key icon_url
holds the given string. -/
inductive IconUrlVal where
  | str (s : String)
  | dict (icon_url : String)
deriving DecidableEq

/-- The location string carried by an icon_url value, whichever shape it has. -/
def iconLocation : IconUrlVal → String
  | .str s => s
  | .dict s => s

/-- Embeds lines 154 to 163 of create_website, the icon resolution step:
get_icon first; when it returns None, generate a letter icon and save it under
a filename built from urlparse(url).netloc with a _default.png ending.
Returns the value bound to icon_url together with the file writes performed;
an error models an uncaught Python exception. -/
def resolve_icon (w : World) (url : String) : Except String (IconUrlVal × List FileWrite) :=
  match get_icon w url with
  | some u => .ok (.dict u, [])
  | none =>
    match generate_letter_icon url with
    | .error e => .error e
    | .ok icon =>
      let filename := netlocOf url ++ "_default.png"
      let result := save_icon_image icon filename
      .ok (.str result.1, [result.2])

/-- The path resolve_icon produces on its fallback branch, written out: the
icon directory, then the netloc with the _default.png ending, colons replaced
by underscores. -/
def default_icon_path (url : String) : String :=
  "./icons/" ++ replaceColonUnderscore (netlocOf url ++ "_default.png")

/-- The request body of the create and update endpoints: name, url, order and
category reference, as in schemas.WebsiteCreate. -/
structure WebsiteCreate where
  name : String
  url : String
  order : Int
  category_id : Option Nat
deriving DecidableEq

/-- A persisted website row, as in models.Website.  The icon_url column holds
the dynamic value create_website assigned, embedded as IconUrlVal. -/
structure WebsiteRow where
  id : Nat
  name : String
  url : String
  icon_url : IconUrlVal
  description : String
  order : Int
  category_id : Option Nat
deriving DecidableEq

/-- A category row, of which only id and name are read here. -/
structure Category where
  id : Nat
  name : String
deriving DecidableEq

/-- The composed response record of the website endpoints, a row enriched with
the joined category name. -/
structure ComposedWebsite where
  id : Nat
  name : String
  icon_url : IconUrlVal
  description : String
  order : Int
  url : String
  category_id : Option Nat
  category_name : Option String
deriving DecidableEq

/-- The paginated response of the listing endpoint. -/
structure PaginatedWebsites where
  data : List ComposedWebsite
  total : Nat
deriving DecidableEq

/-- The left outer join on category id: the matching category name, none when
the reference is null or dangling. -/
def categoryNameOf (cats : List Category) (cid : Option Nat) : Option String :=
  match cid with
  | none => none
  | some i => (cats.find? (fun c => c.id == i)).map (fun c => c.name)

/-- Builds the composed response record from a row and the category table. -/
def composeRow (cats : List Category) (r : WebsiteRow) : ComposedWebsite :=
  ⟨r.id, r.name, r.icon_url, r.description, r.order, r.url, r.category_id,
    categoryNameOf cats r.category_id⟩

/-- The next generated primary key: one past the largest id in the table. -/
def nextId (db : List WebsiteRow) : Nat :=
  (db.map (fun r => r.id)).foldr max 0 + 1

/-- The outcome of a successful create_website call: the composed row, the
table after the insert, and the icon files written. -/
structure CreateOutcome where
  row : WebsiteRow
  db : List WebsiteRow
  writes : List FileWrite
deriving DecidableEq

/-- Embeds create_website: resolve the icon, fetch the description, insert the
new row built from the request plus both derived fields.  Primary key
generation by the store is modelled as one past the maximum id.  An error
models an uncaught Python exception escaping the handler. -/
def create_website (w : World) (db : List WebsiteRow) (input : WebsiteCreate) :
    Except String CreateOutcome :=
  match resolve_icon w input.url with
  | .error e => .error e
  | .ok resolved =>
    let desc := fetch_website_description w input.url
    let row : WebsiteRow :=
      ⟨nextId db, input.name, input.url, resolved.1, desc, input.order, input.category_id⟩
    .ok ⟨row, db ++ [row], resolved.2⟩

/-- The comparison the listing endpoint sorts by: ascending order field. -/
def orderLe (a b : WebsiteRow) : Prop :=
  a.order ≤ b.order

instance : DecidableRel orderLe :=
  fun a b => inferInstanceAs (Decidable (a.order ≤ b.order))

instance : IsTotal WebsiteRow orderLe :=
  ⟨fun a b => le_total a.order b.order⟩

instance : IsTrans WebsiteRow orderLe :=
  ⟨fun _ _ _ h1 h2 => le_trans h1 h2⟩

/-- Embeds read_websites.  The ORDER BY on the order column is modelled as a
sort by orderLe, ties in unspecified relative order.  With all_data true every
joined row is returned and total is the length of that response; otherwise
total is the full table count and the page is the sorted rows offset by skip,
0 when absent, and limited to limit, 10 when absent. -/
def read_websites (db : List WebsiteRow) (cats : List Category)
    (skip limit : Option Nat) (all_data : Bool) : PaginatedWebsites :=
  let sorted := List.insertionSort orderLe db
  if all_data then
    let response := sorted.map (composeRow cats)
    ⟨response, response.length⟩
  else
    let total := db.length
    let page := (sorted.drop (skip.getD 0)).take (limit.getD 10)
    ⟨page.map (composeRow cats), total⟩

/-- An HTTP error raised by a handler. -/
structure HTTPError where
  status_code : Nat
  detail : String
deriving DecidableEq

/-- The update payload after model_dump with exclude_unset: each field is
present exactly when the caller supplied it. -/
structure WebsiteUpdate where
  name : Option String
  url : Option String
  order : Option Int
  category_id : Option (Option Nat)
deriving DecidableEq

/-- Applies the supplied fields of an update payload to a row, leaving unset
fields untouched. -/
def applyUpdate (r : WebsiteRow) (u : WebsiteUpdate) : WebsiteRow :=
  { r with
    name := u.name.getD r.name,
    url := u.url.getD r.url,
    order := u.order.getD r.order,
    category_id := u.category_id.getD r.category_id }

/-- Embeds update_website: load the row by primary key, answer 404 when it is
absent, otherwise apply the supplied fields, commit, and return the composed
record.  The resulting table is returned alongside so that mutation is
observable. -/
def update_website (db : List WebsiteRow) (cats : List Category) (website_id : Nat)
    (payload : WebsiteUpdate) : Except HTTPError ComposedWebsite × List WebsiteRow :=
  match db.find? (fun r => r.id == website_id) with
  | none => (.error ⟨404, "Website not found"⟩, db)
  | some r =>
    let updated := applyUpdate r payload
    (.ok (composeRow cats updated),
      db.map (fun x => if x.id == website_id then updated else x))

/-! Concrete worlds and rows used by counterexamples and witnesses. -/

/-- A page advertising one icon link with relative href /f.ico. -/
def iconPage : Page :=
  ⟨[⟨["icon"], some "/f.ico"⟩], none⟩

/-- A network in which only https://a.com/page resolves, to iconPage. -/
def iconWorld : World :=
  fun u => if u = "https://a.com/page" then some iconPage else none

/-- A network in which every fetch fails. -/
def unreachableWorld : World :=
  fun _ => none

/-- A page without link elements whose meta description content is padded with
whitespace. -/
def descPage : Page :=
  ⟨[], some (some "  Hello World  ")⟩

/-- A page with no meta description tag at all. -/
def noTagPage : Page :=
  ⟨[], none⟩

/-- A page whose meta description tag lacks the content attribute. -/
def bareTagPage : Page :=
  ⟨[], some none⟩

/-- A network serving descPage everywhere. -/
def descWorld : World :=
  fun _ => some descPage

/-- A network serving noTagPage everywhere. -/
def noTagWorld : World :=
  fun _ => some noTagPage

/-- A network serving bareTagPage everywhere. -/
def bareTagWorld : World :=
  fun _ => some bareTagPage

/-- A sample persisted row. -/
def sampleRow : WebsiteRow :=
  ⟨1, "Home", "https://a.com", .str "./icons/a.com_default.png", "", 1, none⟩

/-- Builds the row with id i + 1 and display order i. -/
def mkSampleRow (i : Nat) : WebsiteRow :=
  ⟨i + 1, "", "", .str "p", "", (i : Int), none⟩

/-- A 25 row table. -/
def db25 : List WebsiteRow :=
  (List.range 25).map mkSampleRow

/-! Helper lemmas. -/

/-- Two strings with the same character data are equal. -/
theorem string_eq_of_data_eq (s t : String) (h : s.data = t.data) : s = t := by
  cases s
  cases t
  exact congrArg String.mk (by simpa using h)

/-- Appending a non-empty string on the right yields a non-empty string. -/
theorem append_ne_empty_right (a b : String) (hb : b ≠ "") : a ++ b ≠ "" := by
  intro h
  have hd : a.data ++ b.data = [] := by
    have h2 := congrArg String.data h
    rwa [String.data_append] at h2
  exact hb (string_eq_of_data_eq b "" (List.append_eq_nil.mp hd).2)

/-- Appending to a non-empty string on the left yields a non-empty string. -/
theorem append_ne_empty_left (a b : String) (ha : a ≠ "") : a ++ b ≠ "" := by
  intro h
  have hd : a.data ++ b.data = [] := by
    have h2 := congrArg String.data h
    rwa [String.data_append] at h2
  exact ha (string_eq_of_data_eq a "" (List.append_eq_nil.mp hd).1)

/-- The join of a non-empty reference is non-empty. -/
theorem urljoin_ne_empty (base ref : String) (h : ref ≠ "") : urljoin base ref ≠ "" := by
  unfold urljoin
  split
  · exact h
  · dsimp only
    split
    · exact append_ne_empty_right _ _ h
    · exact append_ne_empty_right _ _ h
    · rename_i heq
      intro _
      exact h (string_eq_of_data_eq ref "" heq)
    · exact append_ne_empty_right _ _ h

/-- A resolved non-empty href is non-empty. -/
theorem resolvedHref_ne_empty (pageUrl href : String) (h : href ≠ "") :
    resolvedHref pageUrl href ≠ "" := by
  unfold resolvedHref
  split
  · exact h
  · exact urljoin_ne_empty _ _ h

/-- Any icon URL that get_icon discovers is non-empty. -/
theorem get_icon_some_ne_empty (w : World) (url u : String)
    (h : get_icon w url = some u) : u ≠ "" := by
  unfold get_icon at h
  split at h
  · simp at h
  · split at h
    · simp at h
    · split at h
      · simp at h
      · split at h
        · simp at h
        · rename_i hne
          injection h with h2
          exact h2 ▸ resolvedHref_ne_empty _ _ hne

/-- When the URL has a parsed hostname, generate_letter_icon succeeds. -/
theorem generate_letter_icon_ok (url host : String) (hh : hostnameOf url = some host) :
    ∃ icon, generate_letter_icon url = .ok icon := by
  unfold generate_letter_icon
  rw [hh]
  dsimp only
  split
  · exact ⟨_, rfl⟩
  · split
    · exact ⟨_, rfl⟩
    · exact ⟨_, rfl⟩

/-- The character data of a colon replacement. -/
theorem replaceColonUnderscore_data (s : String) :
    (replaceColonUnderscore s).data = s.data.map colonToUnderscore := rfl

/-- The colon replacement never produces a colon. -/
theorem colonToUnderscore_ne_colon (c : Char) : colonToUnderscore c ≠ ':' := by
  unfold colonToUnderscore
  split
  · decide
  · assumption

/-- The fallback icon path always ends in .png. -/
theorem default_path_suffix_png (url : String) :
    ".png".data <:+ (default_icon_path url).data := by
  have hmap : "_default.png".data.map colonToUnderscore = "_default.png".data := by decide
  have h1 : (default_icon_path url).data
      = ("./icons/".data ++ (netlocOf url).data.map colonToUnderscore) ++ "_default.png".data := by
    simp only [default_icon_path, String.data_append, replaceColonUnderscore_data,
      List.map_append, hmap, List.append_assoc]
  rw [h1]
  have h2 : ".png".data <:+ "_default.png".data := ⟨"_default".data, by decide⟩
  exact h2.trans (List.suffix_append _ _)

/-- Sortedness of the order fields of composed rows built from a sorted row
list. -/
theorem sorted_orders_of_rows (cats : List Category) (l : List WebsiteRow)
    (hl : List.Sorted orderLe l) :
    List.Sorted (· ≤ ·) ((l.map (composeRow cats)).map (fun c => c.order)) := by
  rw [List.map_map]
  exact List.pairwise_map.mpr hl

/-! Claim theorems. -/

/-- C1: the claim says the persisted icon_url after a successful creation is a
non-empty string, either the discovered remote icon URL or the saved file
path.  The code instead binds the whole dict returned by get_icon: on a page
advertising an icon link, create_website succeeds and persists the dict value
wrapping https://a.com/f.ico rather than that string itself. -/
theorem c1_created_icon_url_is_dict :
    ∃ out, create_website iconWorld [] ⟨"Example", "https://a.com/page", 1, none⟩ = .ok out ∧
      out.row.icon_url = IconUrlVal.dict "https://a.com/f.ico" :=
  ⟨_, rfl, rfl⟩

/-- C2: whenever the first link element found by the rel icon lookup, falling
back to the rel shortcut icon lookup, carries a non-empty href, get_icon
returns that href resolved against the fetched page URL, and the icon
resolution step of create_website stores it without writing any local file. -/
theorem c2_icon_href_resolved (w : World) (url : String) (page : Page) (link : LinkTag)
    (href : String) (hw : w url = some page)
    (hfind : (findLinkByRel page.links "icon").orElse
        (fun _ => findLinkByRel page.links "shortcut icon") = some link)
    (hhref : link.href = some href) (hne : ¬(href = "")) :
    get_icon w url = some (resolvedHref url href) ∧
    resolve_icon w url = .ok (.dict (resolvedHref url href), []) := by
  have hg : get_icon w url = some (resolvedHref url href) := by
    unfold get_icon
    rw [hw]
    dsimp only
    rw [hfind]
    dsimp only
    rw [hhref]
    dsimp only
    rw [if_neg hne]
  refine ⟨hg, ?_⟩
  unfold resolve_icon
  rw [hg]

/-- C2 witness: on https://a.com/page, whose page holds a link with rel icon
and href /f.ico, the resolver returns https://a.com/f.ico and writes no
file. -/
theorem c2_icon_href_resolved_witness :
    get_icon iconWorld "https://a.com/page" = some "https://a.com/f.ico" ∧
    resolve_icon iconWorld "https://a.com/page" = .ok (.dict "https://a.com/f.ico", []) := by
  have h := c2_icon_href_resolved iconWorld "https://a.com/page" iconPage
      ⟨["icon"], some "/f.ico"⟩ "/f.ico" rfl rfl rfl (by decide)
  have he : resolvedHref "https://a.com/page" "/f.ico" = "https://a.com/f.ico" := by decide
  rw [he] at h
  exact h

/-- C3 counterexample: the claim says icon resolution never raises, for every
input URL including malformed ones.  On the malformed URL http:// with an
unreachable network, get_icon returns None and generate_letter_icon then
raises AttributeError, because urlparse gives no hostname; the exception
escapes to the caller. -/
theorem c3_resolution_raises_on_bare_scheme :
    resolve_icon unreachableWorld "http://" =
      .error "AttributeError: NoneType has no attribute replace" := rfl

/-- C3 amended: for every URL whose parsed hostname exists, icon resolution
never raises and yields a non-empty location, either a remote icon URL or a
local file path. -/
theorem c3_resolution_total_for_parsed_hosts (w : World) (url host : String)
    (hh : hostnameOf url = some host) :
    ∃ v writes, resolve_icon w url = .ok (v, writes) ∧ iconLocation v ≠ "" := by
  cases hg : get_icon w url with
  | some u =>
    refine ⟨.dict u, [], ?_, get_icon_some_ne_empty w url u hg⟩
    unfold resolve_icon
    rw [hg]
  | none =>
    obtain ⟨icon, hgen⟩ := generate_letter_icon_ok url host hh
    refine ⟨.str (save_icon_image icon (netlocOf url ++ "_default.png")).1,
      [(save_icon_image icon (netlocOf url ++ "_default.png")).2], ?_, ?_⟩
    · unfold resolve_icon
      rw [hg, hgen]
    · show (save_icon_image icon (netlocOf url ++ "_default.png")).1 ≠ ""
      unfold save_icon_image
      dsimp only
      split
      · exact append_ne_empty_left _ _ (by decide)
      · exact append_ne_empty_right _ _ (by decide)

/-- C3 witness: on https://a.com with every fetch failing, resolution
completes with a non-empty location. -/
theorem c3_resolution_total_witness :
    hostnameOf "https://a.com" = some "a.com" ∧
    ∃ v writes, resolve_icon unreachableWorld "https://a.com" = .ok (v, writes) ∧
      iconLocation v ≠ "" :=
  ⟨rfl, c3_resolution_total_for_parsed_hosts unreachableWorld "https://a.com" "a.com" rfl⟩

/-- C4: for a URL with a parsed hostname, the drawn letter is the uppercased
first hostname character when the host with dots removed is a digit string,
and otherwise the uppercased first character of the extracted domain, with U
when no domain label exists. -/
theorem c4_letter_choice (url host : String) (hh : hostnameOf url = some host) :
    generate_letter_icon url = .ok ⟨
      if pyIsDigit (removeDots host) then host.front.toUpper
      else if !(tldextract_domain url = "") then (tldextract_domain url).front.toUpper
      else 'U'⟩ := by
  unfold generate_letter_icon
  rw [hh]
  dsimp only
  split
  · rfl
  · split
    · rfl
    · rfl

/-- C4 witness: a dotted-decimal host yields its first digit, a co.uk host
yields the uppercased first domain character, and a bare public-suffix host
yields U. -/
theorem c4_letter_choice_witness :
    (hostnameOf "http://8.8.4.4:53/x" = some "8.8.4.4" ∧
      generate_letter_icon "http://8.8.4.4:53/x" = .ok ⟨'8'⟩) ∧
    (hostnameOf "https://www.example.co.uk/a" = some "www.example.co.uk" ∧
      generate_letter_icon "https://www.example.co.uk/a" = .ok ⟨'E'⟩) ∧
    (hostnameOf "http://com/" = some "com" ∧
      generate_letter_icon "http://com/" = .ok ⟨'U'⟩) := by
  refine ⟨⟨rfl, ?_⟩, ⟨rfl, ?_⟩, ⟨rfl, ?_⟩⟩
  · exact c4_letter_choice "http://8.8.4.4:53/x" "8.8.4.4" rfl
  · exact c4_letter_choice "https://www.example.co.uk/a" "www.example.co.uk" rfl
  · exact c4_letter_choice "http://com/" "com" rfl

/-- C5: when get_icon discovers no icon and the URL has a parsed hostname,
resolution returns and writes the path built from the icon directory, the
netloc of the URL and the _default.png ending; that path sits under ./icons/,
ends in .png, and its filename part contains no colon. -/
theorem c5_default_path_shape (w : World) (url host : String)
    (hno : get_icon w url = none) (hh : hostnameOf url = some host) :
    (∃ icon, resolve_icon w url =
      .ok (.str (default_icon_path url), [⟨default_icon_path url, icon⟩])) ∧
    "./icons/".data <+: (default_icon_path url).data ∧
    ".png".data <:+ (default_icon_path url).data ∧
    ∀ c ∈ (replaceColonUnderscore (netlocOf url ++ "_default.png")).data, c ≠ ':' := by
  refine ⟨?_, ?_, default_path_suffix_png url, ?_⟩
  · obtain ⟨icon, hgen⟩ := generate_letter_icon_ok url host hh
    have hcond : ".png".data.isSuffixOf
        ("./icons/" ++ replaceColonUnderscore (netlocOf url ++ "_default.png")).data = true :=
      List.isSuffixOf_iff_suffix.mpr (default_path_suffix_png url)
    refine ⟨icon, ?_⟩
    unfold resolve_icon
    rw [hno, hgen]
    dsimp only
    unfold save_icon_image
    dsimp only
    rw [if_pos hcond]
    rfl
  · exact ⟨(replaceColonUnderscore (netlocOf url ++ "_default.png")).data,
      (String.data_append _ _).symm⟩
  · intro c hc
    rw [replaceColonUnderscore_data] at hc
    obtain ⟨a, _, ha⟩ := List.mem_map.mp hc
    exact ha ▸ colonToUnderscore_ne_colon a

/-- C5 witness: with every fetch failing, creating for https://a.com:8443/x
falls back to the letter icon saved at ./icons/a.com_8443_default.png, the
port colon replaced by an underscore. -/
theorem c5_default_path_shape_witness :
    get_icon unreachableWorld "https://a.com:8443/x" = none ∧
    hostnameOf "https://a.com:8443/x" = some "a.com" ∧
    default_icon_path "https://a.com:8443/x" = "./icons/a.com_8443_default.png" ∧
    ∃ icon, resolve_icon unreachableWorld "https://a.com:8443/x" =
      .ok (.str "./icons/a.com_8443_default.png",
        [⟨"./icons/a.com_8443_default.png", icon⟩]) := by
  refine ⟨rfl, rfl, by decide, ?_⟩
  have h := (c5_default_path_shape unreachableWorld "https://a.com:8443/x" "a.com" rfl rfl).1
  have he : default_icon_path "https://a.com:8443/x" = "./icons/a.com_8443_default.png" := by
    decide
  rw [he] at h
  exact h

/-- C6: with all_data true, the listing answers total equal to the length of
the returned data, and the data is sorted non-decreasing on the order
field. -/
theorem c6_all_data_total_eq_and_sorted (db : List WebsiteRow) (cats : List Category)
    (skip limit : Option Nat) :
    (read_websites db cats skip limit true).total
        = (read_websites db cats skip limit true).data.length ∧
    List.Sorted (· ≤ ·)
      ((read_websites db cats skip limit true).data.map (fun c => c.order)) := by
  constructor
  · rfl
  · exact sorted_orders_of_rows cats _ (List.sorted_insertionSort orderLe db)

/-- C7: without all_data, the listing answers the full table count as total,
independent of skip and limit, and the page is the rows sorted by order,
offset by skip with default 0 and limited to limit with default 10; on a 25
row table, skip 0 and limit 10 return 10 rows and total 25. -/
theorem c7_paged_listing :
    (∀ (db : List WebsiteRow) (cats : List Category) (skip limit : Option Nat),
      (read_websites db cats skip limit false).total = db.length ∧
      (read_websites db cats skip limit false).data
          = (((List.insertionSort orderLe db).drop (skip.getD 0)).take (limit.getD 10)).map
              (composeRow cats) ∧
      (read_websites db cats skip limit false).data.length
          = min (limit.getD 10) (db.length - skip.getD 0) ∧
      List.Sorted (· ≤ ·)
        ((read_websites db cats skip limit false).data.map (fun c => c.order))) ∧
    (read_websites db25 [] (some 0) (some 10) false).total = 25 ∧
    (read_websites db25 [] (some 0) (some 10) false).data.length = 10 := by
  have hgen : ∀ (db : List WebsiteRow) (cats : List Category) (skip limit : Option Nat),
      (read_websites db cats skip limit false).total = db.length ∧
      (read_websites db cats skip limit false).data
          = (((List.insertionSort orderLe db).drop (skip.getD 0)).take (limit.getD 10)).map
              (composeRow cats) ∧
      (read_websites db cats skip limit false).data.length
          = min (limit.getD 10) (db.length - skip.getD 0) ∧
      List.Sorted (· ≤ ·)
        ((read_websites db cats skip limit false).data.map (fun c => c.order)) := by
    intro db cats skip limit
    refine ⟨rfl, rfl, ?_, ?_⟩
    · show ((((List.insertionSort orderLe db).drop (skip.getD 0)).take (limit.getD 10)).map
          (composeRow cats)).length = _
      rw [List.length_map, List.length_take, List.length_drop,
        (List.perm_insertionSort orderLe db).length_eq]
    · have hsub : List.Sublist
          (((List.insertionSort orderLe db).drop (skip.getD 0)).take (limit.getD 10))
          (List.insertionSort orderLe db) :=
        (List.take_sublist _ _).trans (List.drop_sublist _ _)
      exact sorted_orders_of_rows cats _
        (List.Pairwise.sublist hsub (List.sorted_insertionSort orderLe db))
  refine ⟨hgen, ?_, ?_⟩
  · rw [(hgen db25 [] (some 0) (some 10)).1]
    decide
  · rw [(hgen db25 [] (some 0) (some 10)).2.2.1]
    decide

/-- C8: updating an id no row carries answers 404 Website not found and leaves
the table unchanged. -/
theorem c8_update_missing_id_not_found (db : List WebsiteRow) (cats : List Category)
    (website_id : Nat) (payload : WebsiteUpdate)
    (h : ∀ r ∈ db, r.id ≠ website_id) :
    update_website db cats website_id payload = (.error ⟨404, "Website not found"⟩, db) := by
  have hf : db.find? (fun r => r.id == website_id) = none := by
    rw [List.find?_eq_none]
    intro x hx
    simpa using h x hx
  unfold update_website
  rw [hf]

/-- C8 witness: updating id 2 in a table holding only id 1 answers 404 and
the table is returned unchanged. -/
theorem c8_update_missing_id_witness :
    (∀ r ∈ [sampleRow], r.id ≠ 2) ∧
    update_website [sampleRow] [] 2 ⟨none, none, none, none⟩ =
      (.error ⟨404, "Website not found"⟩, [sampleRow]) :=
  ⟨by decide, c8_update_missing_id_not_found [sampleRow] [] 2 ⟨none, none, none, none⟩ (by decide)⟩

/-- C9: the description fetcher returns the empty string on any fetch failure,
on a page without the description meta tag, and on a tag without content
attribute; otherwise it returns the content stripped of surrounding
whitespace.  Being a total function of the world, it raises nothing. -/
theorem c9_description_cases (w : World) (url : String) :
    (w url = none → fetch_website_description w url = "") ∧
    (∀ page, w url = some page → page.descTag = none →
      fetch_website_description w url = "") ∧
    (∀ page, w url = some page → page.descTag = some none →
      fetch_website_description w url = "") ∧
    (∀ page c, w url = some page → page.descTag = some (some c) →
      fetch_website_description w url = pyStrip c) := by
  refine ⟨?_, ?_, ?_, ?_⟩
  · intro h
    unfold fetch_website_description
    rw [h]
  · intro page hw hd
    unfold fetch_website_description
    rw [hw]
    dsimp only
    rw [hd]
  · intro page hw hd
    unfold fetch_website_description
    rw [hw]
    dsimp only
    rw [hd]
    rfl
  · intro page c hw hd
    unfold fetch_website_description
    rw [hw]
    dsimp only
    rw [hd]
    rfl

/-- C9 witness: empty string for an unreachable URL, a page without the tag,
and a tag without content; the padded content Hello World comes back
stripped. -/
theorem c9_description_cases_witness :
    fetch_website_description unreachableWorld "https://a.com" = "" ∧
    fetch_website_description noTagWorld "https://a.com" = "" ∧
    fetch_website_description bareTagWorld "https://a.com" = "" ∧
    fetch_website_description descWorld "https://a.com" = "Hello World" := by
  refine ⟨(c9_description_cases unreachableWorld "https://a.com").1 rfl,
    (c9_description_cases noTagWorld "https://a.com").2.1 noTagPage rfl rfl,
    (c9_description_cases bareTagWorld "https://a.com").2.2.1 bareTagPage rfl rfl, ?_⟩
  have h := (c9_description_cases descWorld "https://a.com").2.2.2 descPage
    "  Hello World  " rfl rfl
  rw [h]
  decide

/-- C10: with all_data true the listing result does not depend on skip and
limit at all, and every row of the table is returned. -/
theorem c10_all_data_ignores_skip_limit (db : List WebsiteRow) (cats : List Category)
    (skip1 limit1 skip2 limit2 : Option Nat) :
    read_websites db cats skip1 limit1 true = read_websites db cats skip2 limit2 true ∧
    (read_websites db cats skip1 limit1 true).data
        = (List.insertionSort orderLe db).map (composeRow cats) ∧
    (read_websites db cats skip1 limit1 true).data.length = db.length := by
  refine ⟨rfl, rfl, ?_⟩
  show ((List.insertionSort orderLe db).map (composeRow cats)).length = db.length
  rw [List.length_map, (List.perm_insertionSort orderLe db).length_eq]
